import Mathlib

/-!
Verification of the email token subsystem of the generic-saas repository
(`backend/internal/email/tokens.go` and `backend/internal/email/email.go`).

The Go code is shallowly embedded: the SQL store is a pure in-memory state
(`DBState`), `time.Now()` becomes an explicit `now : Int` parameter,
randomness (`crypto/rand`) becomes an oracle parameter, and the notifier is
modelled by the list of notifications the call emits together with a
caller-supplied notifier outcome.  SHA-256 (`crypto/sha256`) and
`subtle.ConstantTimeCompare` are implemented over byte lists (`List Nat`).
-/

deriving instance DecidableEq for Except

set_option maxRecDepth 100000

namespace GenericSaas

/-! ## Bytes, SHA-256 and constant-time comparison -/

/-- Truncation to a 32-bit word, the implicit wrap-around of Go `uint32`. -/
def w32 (n : Nat) : Nat := n % 4294967296

/-- 32-bit right rotation. -/
def rotr (k n : Nat) : Nat := w32 ((n >>> k) ||| (n <<< (32 - k)))

/-- SHA-256 `Ch` function: `(x AND y) XOR (NOT x AND z)` on 32-bit words. -/
def shaCh (x y z : Nat) : Nat := (x &&& y) ^^^ ((x ^^^ 4294967295) &&& z)

/-- SHA-256 `Maj` function. -/
def shaMaj (x y z : Nat) : Nat := (x &&& y) ^^^ (x &&& z) ^^^ (y &&& z)

def bigSigma0 (x : Nat) : Nat := rotr 2 x ^^^ rotr 13 x ^^^ rotr 22 x

def bigSigma1 (x : Nat) : Nat := rotr 6 x ^^^ rotr 11 x ^^^ rotr 25 x

def smallSigma0 (x : Nat) : Nat := rotr 7 x ^^^ rotr 18 x ^^^ (x >>> 3)

def smallSigma1 (x : Nat) : Nat := rotr 17 x ^^^ rotr 19 x ^^^ (x >>> 10)

/-- The 64 SHA-256 round constants (FIPS 180-4), written in decimal. -/
def sha256K : List Nat :=
  [1116352408, 1899447441, 3049323471, 3921009573, 961987163, 1508970993,
   2453635748, 2870763221, 3624381080, 310598401, 607225278, 1426881987,
   1925078388, 2162078206, 2614888103, 3248222580, 3835390401, 4022224774,
   264347078, 604807628, 770255983, 1249150122, 1555081692, 1996064986,
   2554220882, 2821834349, 2952996808, 3210313671, 3336571891, 3584528711,
   113926993, 338241895, 666307205, 773529912, 1294757372, 1396182291,
   1695183700, 1986661051, 2177026350, 2456956037, 2730485921, 2820302411,
   3259730800, 3345764771, 3516065817, 3600352804, 4094571909, 275423344,
   430227734, 506948616, 659060556, 883997877, 958139571, 1322822218,
   1537002063, 1747873779, 1955562222, 2024104815, 2227730452, 2361852424,
   2428436474, 2756734187, 3204031479, 3329325298]

/-- The eight SHA-256 initial hash values. -/
structure Hash8 where
  a : Nat
  b : Nat
  c : Nat
  d : Nat
  e : Nat
  f : Nat
  g : Nat
  h : Nat
deriving DecidableEq, Repr

def sha256Init : Hash8 :=
  ⟨1779033703, 3144134277, 1013904242, 2773480762,
   1359893119, 2600822924, 528734635, 1541459225⟩

/-- Big-endian serialization of `n` into `k` bytes. -/
def toBytesBE (k n : Nat) : List Nat :=
  (List.range k).map (fun i => (n >>> (8 * (k - 1 - i))) % 256)

/-- Big-endian word from a byte list. -/
def bytesToWord (bs : List Nat) : Nat := bs.foldl (fun acc x => acc * 256 + x) 0

/-- SHA-256 padding: append `0x80`, zeros, and the 64-bit big-endian bit length. -/
def padMessage (msg : List Nat) : List Nat :=
  let zeros := (119 - msg.length % 64) % 64
  msg ++ [0x80] ++ List.replicate zeros 0 ++ toBytesBE 8 (8 * msg.length)

/-- Split a byte list into 64-byte blocks (fuel-based structural recursion so
that the kernel can evaluate it; the fuel `l.length` always suffices since
every step consumes at least one element). -/
def chunks64Aux : Nat → List Nat → List (List Nat)
  | 0, _ => []
  | _, [] => []
  | fuel + 1, x :: xs => ((x :: xs).take 64) :: chunks64Aux fuel ((x :: xs).drop 64)

def chunks64 (l : List Nat) : List (List Nat) := chunks64Aux l.length l

/-- The first 16 words of the message schedule, big-endian from the block. -/
def blockWords (b : List Nat) : List Nat :=
  (List.range 16).map (fun i => bytesToWord ((b.drop (4 * i)).take 4))

/-- Extend 16 schedule words to 64. -/
def schedule (ws : List Nat) : List Nat :=
  (List.range 48).foldl
    (fun w _ =>
      let i := w.length
      w ++ [w32 (smallSigma1 (w.getD (i - 2) 0) + w.getD (i - 7) 0 +
                 smallSigma0 (w.getD (i - 15) 0) + w.getD (i - 16) 0)])
    ws

/-- One SHA-256 round. -/
def sha256Round (st : Hash8) (k w : Nat) : Hash8 :=
  let t1 := w32 (st.h + bigSigma1 st.e + shaCh st.e st.f st.g + k + w)
  let t2 := w32 (bigSigma0 st.a + shaMaj st.a st.b st.c)
  ⟨w32 (t1 + t2), st.a, st.b, st.c, w32 (st.d + t1), st.e, st.f, st.g⟩

/-- Compression of one 64-byte block. -/
def sha256Compress (st : Hash8) (block : List Nat) : Hash8 :=
  let w := schedule (blockWords block)
  let r := (List.zip sha256K w).foldl (fun s p => sha256Round s p.1 p.2) st
  ⟨w32 (st.a + r.a), w32 (st.b + r.b), w32 (st.c + r.c), w32 (st.d + r.d),
   w32 (st.e + r.e), w32 (st.f + r.f), w32 (st.g + r.g), w32 (st.h + r.h)⟩

/-- SHA-256 of a byte list, as the 32-byte digest. -/
def sha256Bytes (msg : List Nat) : List Nat :=
  let fin := (chunks64 (padMessage msg)).foldl sha256Compress sha256Init
  toBytesBE 4 fin.a ++ toBytesBE 4 fin.b ++ toBytesBE 4 fin.c ++ toBytesBE 4 fin.d ++
  toBytesBE 4 fin.e ++ toBytesBE 4 fin.f ++ toBytesBE 4 fin.g ++ toBytesBE 4 fin.h

/-- UTF-8 encoding of one character, the bytes Go's `[]byte(string)` produces. -/
def utf8EncodeChar (c : Char) : List Nat :=
  let n := c.toNat
  if n < 128 then [n]
  else if n < 2048 then [192 ||| (n >>> 6), 128 ||| (n &&& 63)]
  else if n < 65536 then
    [224 ||| (n >>> 12), 128 ||| ((n >>> 6) &&& 63), 128 ||| (n &&& 63)]
  else
    [240 ||| (n >>> 18), 128 ||| ((n >>> 12) &&& 63),
     128 ||| ((n >>> 6) &&& 63), 128 ||| (n &&& 63)]

/-- UTF-8 bytes of a string. -/
def utf8Bytes (s : String) : List Nat := (s.data.map utf8EncodeChar).flatten

/-- `hashToken` from `email.go`: SHA-256 of the token's bytes. -/
def hashToken (token : String) : List Nat := sha256Bytes (utf8Bytes token)

/-- `subtle.ConstantTimeCompare`: 1 when the byte slices have equal length and
the OR of the byte-wise XORs is zero, otherwise 0. -/
def constantTimeCompare (x y : List Nat) : Nat :=
  if x.length ≠ y.length then 0
  else if (List.zipWith (fun a b => a ^^^ b) x y).foldl (fun v w => v ||| w) 0 = 0 then 1
  else 0

/-! ## Email validation (`email.go`) -/

/-- Does the list start with the given pattern? -/
def startsWithList (l pat : List Char) : Bool :=
  match l, pat with
  | _, [] => true
  | [], _ :: _ => false
  | a :: as, b :: bs => a == b && startsWithList as bs

/-- Go's `strings.Split` over character lists (all needles here are ASCII, so
byte- and character-based splitting coincide).  `fuel` bounds the recursion;
each step consumes at least one character, so `l.length` always suffices. -/
def splitAux (sep : List Char) : Nat → List Char → List Char → List (List Char)
  | 0, acc, l => [acc.reverse ++ l]
  | _ + 1, acc, [] => [acc.reverse]
  | fuel + 1, acc, c :: cs =>
    if startsWithList (c :: cs) sep then
      acc.reverse :: splitAux sep fuel [] ((c :: cs).drop sep.length)
    else
      splitAux sep fuel (c :: acc) cs

/-- Split a character list around every occurrence of a nonempty separator. -/
def splitList (l sep : List Char) : List (List Char) := splitAux sep l.length [] l

/-- Go's `strings.Contains` for a nonempty needle: splitting yields more than
one piece exactly when the needle occurs. -/
def containsSub (l sub : List Char) : Bool := 1 < (splitList l sub).length

/-- The domains `isValidEmail` rejects by substring containment. -/
def blockedDomains : List String :=
  ["localhost", "127.0.0.1", "0.0.0.0", "10.", "192.168.", "172."]

/-- `isValidEmail` from `email.go`: nonempty, exactly one `@`, nonempty local
part and domain, and no blocked substring in the domain. -/
def isValidEmail (email : String) : Bool :=
  if email = "" then false
  else
    match splitList email.data ("@".data) with
    | [loc, dom] =>
      if loc = [] ∨ dom = [] then false
      else !(blockedDomains.any (fun b => containsSub dom b.data))
    | _ => false

/-- The subsystem's error taxonomy: the sentinel errors of `email.go` plus
the ad hoc `errors.New` cases of `tokens.go`. -/
inductive TokenError where
  | invalidEmail
  | invalidToken
  | tokenExpired
  | rateLimitExceeded
  | emailNewline
  | emptyCode
  | emptyToken
  | invalidUserId
  | notifyFailure
deriving DecidableEq, Repr

/-- `sanitizeEmail`: reject emails with CR or LF (header-injection guard). -/
def sanitizeEmail (email : String) : Except TokenError Unit :=
  if email.data.contains (Char.ofNat 10) ∨ email.data.contains (Char.ofNat 13) then
    .error .emailNewline
  else .ok ()

/-- `validateEmailAddress`: sanitize, then format-validate. -/
def validateEmailAddress (email : String) : Except TokenError Unit :=
  match sanitizeEmail email with
  | .error e => .error e
  | .ok _ => if isValidEmail email then .ok () else .error .invalidEmail

/-! ## Data model (`tokens.go` plus the `email_tokens` / `users` tables) -/

inductive TokenType where
  | passwordReset
  | emailVerification
  | magicLink
deriving DecidableEq, Repr

/-- A row of the `email_tokens` table (`EmailToken` in `tokens.go`).
`token` is the stored SHA-256 digest, never the plaintext. -/
structure EmailToken where
  id : Nat
  token : List Nat
  userId : Int
  email : String
  type : TokenType
  expiresAt : Int
  used : Bool
  createdAt : Int
  requestIP : String
  userAgent : String
deriving DecidableEq, Repr

/-- The slice of the `users` table this subsystem touches. -/
structure User where
  id : Int
  email : String
  emailVerifiedAt : Option Int
deriving DecidableEq, Repr

/-- The durable store: both tables plus the serial-id counter. -/
structure DBState where
  users : List User
  tokens : List EmailToken
  nextId : Nat
deriving DecidableEq, Repr

/-- Timestamps are seconds; Go durations scale accordingly. -/
def secondsPerMinute : Int := 60

def secondsPerHour : Int := 60 * secondsPerMinute

def secondsPerDay : Int := 24 * secondsPerHour

/-- 15-minute password-reset validity (`tokens.go` line 88). -/
def resetCodeTTL : Int := 15 * secondsPerMinute

/-- 48-hour email-verification validity (`tokens.go` line 189). -/
def verificationTTL : Int := 48 * secondsPerHour

/-- 7-day audit retention for used tokens (`tokens.go` line 266). -/
def usedRetention : Int := 7 * secondsPerDay

/-! ## Store operations (the SQL statements of `tokens.go`) -/

/-- Row predicate of `WHERE email = $1 AND type = $2 AND used = false`. -/
def unusedForEmail (t : EmailToken) (email : String) (ty : TokenType) : Bool :=
  decide (t.email = email) && decide (t.type = ty) && !t.used

/-- One step of the `ORDER BY created_at DESC LIMIT 1` scan: keep whichever
row has the larger `created_at` (the earlier row on ties). -/
def pickLatestStep (acc : Option EmailToken) (t : EmailToken) : Option EmailToken :=
  match acc with
  | none => some t
  | some b => if b.createdAt < t.createdAt then some t else some b

/-- `ORDER BY created_at DESC LIMIT 1`: the row with maximal `created_at`
(first such row on ties). -/
def pickLatest (l : List EmailToken) : Option EmailToken :=
  l.foldl pickLatestStep none

/-- The password-reset lookup query of `VerifyPasswordResetCode`. -/
def findLatestUnused (st : DBState) (email : String) (ty : TokenType) : Option EmailToken :=
  pickLatest (st.tokens.filter (fun t => unusedForEmail t email ty))

/-- The email-verification lookup query of `VerifyEmailToken`
(`WHERE token = $1 AND type = $2 AND used = false LIMIT 1`). -/
def findFirstUnusedByHash (st : DBState) (hash : List Nat) (ty : TokenType) : Option EmailToken :=
  st.tokens.find? (fun t => decide (t.token = hash) && decide (t.type = ty) && !t.used)

/-- `UPDATE email_tokens SET used = true WHERE id = $1`. -/
def markUsed (st : DBState) (id : Nat) : DBState :=
  { st with tokens := st.tokens.map (fun t => if t.id = id then { t with used := true } else t) }

/-- `UPDATE users SET email_verified_at = $1 WHERE id = $2 AND email_verified_at IS NULL`. -/
def setVerifiedIfUnset (st : DBState) (uid : Int) (now : Int) : DBState :=
  { st with users := st.users.map (fun u =>
      if u.id = uid ∧ u.emailVerifiedAt = none then { u with emailVerifiedAt := some now } else u) }

/-- `INSERT INTO email_tokens ... SELECT $1, u.id, ... FROM users u WHERE u.email = $2`:
one row per user whose email matches, serial ids. -/
def insertTokenRowsForEmail (st : DBState) (hash : List Nat) (email : String) (ty : TokenType)
    (expiresAt now : Int) (ip ua : String) : DBState :=
  let matching := st.users.filter (fun u => decide (u.email = email))
  let rows := matching.enum.map (fun p =>
    { id := st.nextId + p.1, token := hash, userId := p.2.id, email := email, type := ty,
      expiresAt := expiresAt, used := false, createdAt := now,
      requestIP := ip, userAgent := ua : EmailToken })
  { st with tokens := st.tokens ++ rows, nextId := st.nextId + rows.length }

/-- The trailing-hour issuance count of `checkRateLimit`
(`WHERE email = $1 AND type = $2 AND created_at > now - 1h`). -/
def recentCount (st : DBState) (email : String) (ty : TokenType) (now : Int) : Nat :=
  (st.tokens.filter (fun t =>
    decide (t.email = email) && decide (t.type = ty) &&
    decide (now - secondsPerHour < t.createdAt))).length

/-! ## Token manager operations (`tokens.go`) -/

/-- `checkRateLimit`: fail when the trailing-hour count is at least 3. -/
def checkRateLimit (st : DBState) (email : String) (ty : TokenType) (now : Int) :
    Except TokenError Unit :=
  if 3 ≤ recentCount st email ty now then .error .rateLimitExceeded else .ok ()

structure SecurityContext where
  requestIP : String
  userAgent : String
  requestTime : Int
deriving DecidableEq, Repr

structure PasswordResetRequest where
  email : String
  requestIP : String
  userAgent : String
deriving DecidableEq, Repr

/-- A `SendPasswordResetCode` call handed to the notifier: plaintext code
plus security context. -/
structure ResetNotification where
  recipient : String
  code : String
  ctx : SecurityContext
deriving DecidableEq, Repr

/-- `RequestPasswordReset`.  `code` is the value `generateNumericCode(6)`
produced, `notifyResult` the notifier's outcome; the middle component lists
the notifier calls the function made. -/
def requestPasswordReset (st : DBState) (req : PasswordResetRequest) (code : String) (now : Int)
    (notifyResult : Except TokenError Unit) :
    DBState × List ResetNotification × Except TokenError Unit :=
  match validateEmailAddress req.email with
  | .error e => (st, [], .error e)
  | .ok _ =>
    match checkRateLimit st req.email .passwordReset now with
    | .error e => (st, [], .error e)
    | .ok _ =>
      let hashedCode := hashToken code
      let st1 := insertTokenRowsForEmail st hashedCode req.email .passwordReset
        (now + resetCodeTTL) now req.requestIP req.userAgent
      (st1, [⟨req.email, code, ⟨req.requestIP, req.userAgent, now⟩⟩], notifyResult)

/-- `VerifyPasswordResetCode`. -/
def verifyPasswordResetCode (st : DBState) (email code : String) (now : Int) :
    DBState × Except TokenError EmailToken :=
  match validateEmailAddress email with
  | .error e => (st, .error e)
  | .ok _ =>
    if code = "" then (st, .error .emptyCode)
    else
      let providedHash := hashToken code
      match findLatestUnused st email .passwordReset with
      | none => (st, .error .invalidToken)
      | some tok =>
        if tok.expiresAt < now then (st, .error .tokenExpired)
        else if constantTimeCompare providedHash tok.token ≠ 1 then (st, .error .invalidToken)
        else (markUsed st tok.id, .ok tok)

structure EmailVerificationRequest where
  userId : Int
  email : String
  name : String
  requestIP : String
  userAgent : String
deriving DecidableEq, Repr

/-- A `SendEmailVerification` call handed to the notifier; `token` is the
plaintext opaque token the URL builder receives. -/
structure VerificationNotification where
  recipient : String
  name : String
  token : String
deriving DecidableEq, Repr

/-- `RequestEmailVerification`.  `token` is the value `generateSecureToken()`
produced. -/
def requestEmailVerification (st : DBState) (req : EmailVerificationRequest) (token : String)
    (now : Int) (notifyResult : Except TokenError Unit) :
    DBState × List VerificationNotification × Except TokenError Unit :=
  match validateEmailAddress req.email with
  | .error e => (st, [], .error e)
  | .ok _ =>
    if req.userId ≤ 0 then (st, [], .error .invalidUserId)
    else
      let row : EmailToken :=
        { id := st.nextId, token := hashToken token, userId := req.userId, email := req.email,
          type := .emailVerification, expiresAt := now + verificationTTL, used := false,
          createdAt := now, requestIP := req.requestIP, userAgent := req.userAgent }
      ({ st with tokens := st.tokens ++ [row], nextId := st.nextId + 1 },
       [⟨req.email, req.name, token⟩], notifyResult)

/-- `VerifyEmailToken`. -/
def verifyEmailToken (st : DBState) (token : String) (now : Int) :
    DBState × Except TokenError EmailToken :=
  if token = "" then (st, .error .emptyToken)
  else
    let providedHash := hashToken token
    match findFirstUnusedByHash st providedHash .emailVerification with
    | none => (st, .error .invalidToken)
    | some tok =>
      if tok.expiresAt < now then (st, .error .tokenExpired)
      else (setVerifiedIfUnset (markUsed st tok.id) tok.userId now, .ok tok)

/-- `CleanupExpiredTokens`:
`DELETE WHERE expires_at < now OR (used = true AND created_at < now - 7d)`. -/
def cleanupExpiredTokens (st : DBState) (now : Int) : DBState :=
  { st with tokens := st.tokens.filter (fun t =>
      !(decide (t.expiresAt < now) || (t.used && decide (t.createdAt < now - usedRetention)))) }

/-- Active (unexpired, unused) token count per flow type, from `GetTokenStats`. -/
def activeTokenCount (st : DBState) (ty : TokenType) (now : Int) : Nat :=
  (st.tokens.filter (fun t =>
    decide (now < t.expiresAt) && !t.used && decide (t.type = ty))).length

/-- Expired token count (`expires_at <= now`), from `GetTokenStats`. -/
def expiredTokenCount (st : DBState) (now : Int) : Nat :=
  (st.tokens.filter (fun t => decide (t.expiresAt ≤ now))).length

/-- `GetTokenStats`: read-only statistics; the returned state is the input
state since the function only issues SELECTs. -/
def getTokenStats (st : DBState) (now : Int) :
    DBState × (List (TokenType × Nat) × Nat) :=
  (st,
   ([(.passwordReset, activeTokenCount st .passwordReset now),
     (.emailVerification, activeTokenCount st .emailVerification now),
     (.magicLink, activeTokenCount st .magicLink now)],
    expiredTokenCount st now))

/-! ## Numeric code generation (`email.go`) -/

/-- Decimal digit characters of `n`, most significant first (empty for 0);
fuel-based structural recursion so the kernel can evaluate it. -/
def decimalDigitsAux : Nat → Nat → List Char
  | 0, _ => []
  | _ + 1, 0 => []
  | fuel + 1, m + 1 =>
    decimalDigitsAux fuel ((m + 1) / 10) ++ [Char.ofNat (48 + (m + 1) % 10)]

def decimalDigits (n : Nat) : List Char := decimalDigitsAux n n

/-- Left zero-padding to `width`, the effect of Go's `%0*d` format. -/
def zeroPad (width : Nat) (ds : List Char) : List Char :=
  List.replicate (width - ds.length) (Char.ofNat 48) ++ ds

/-- `generateNumericCode`.  `rnd` is the value `rand.Int(rand.Reader, 10^length)`
drew, which that API guarantees to be below `10^length`. -/
def generateNumericCode (length : Int) (rnd : Nat) : Except String String :=
  if length ≤ 0 ∨ 10 < length then .error "code length must be between 1 and 10"
  else .ok (String.mk (zeroPad length.toNat (decimalDigits rnd)))

/-! ## Supporting lemmas: bitwise comparison -/

theorem lor_eq_zero_iff (m n : Nat) : m ||| n = 0 ↔ m = 0 ∧ n = 0 := by
  constructor
  · intro h
    have hb : ∀ i, m.testBit i = false ∧ n.testBit i = false := by
      intro i
      have h2 := congrArg (fun x => Nat.testBit x i) h
      simpa [Nat.testBit_or] using h2
    exact ⟨Nat.eq_of_testBit_eq (fun i => by simp [(hb i).1]),
           Nat.eq_of_testBit_eq (fun i => by simp [(hb i).2])⟩
  · rintro ⟨rfl, rfl⟩
    rfl

theorem foldl_lor_eq_zero_iff (l : List Nat) (a : Nat) :
    l.foldl (fun v w => v ||| w) a = 0 ↔ a = 0 ∧ ∀ x ∈ l, x = 0 := by
  induction l generalizing a with
  | nil => simp
  | cons y ys ih =>
    simp only [List.foldl_cons, ih, lor_eq_zero_iff, List.mem_cons]
    constructor
    · rintro ⟨⟨ha, hy⟩, hys⟩
      exact ⟨ha, fun x hx => hx.elim (fun hh => hh ▸ hy) (hys x)⟩
    · rintro ⟨ha, hall⟩
      exact ⟨⟨ha, hall y (Or.inl rfl)⟩, fun x hx => hall x (Or.inr hx)⟩

theorem zipWith_xor_self (x : List Nat) :
    List.zipWith (fun a b => a ^^^ b) x x = x.map (fun _ => 0) := by
  induction x with
  | nil => rfl
  | cons a as ih => simp [ih, Nat.xor_self]

theorem eq_of_zipWith_xor_zero (x y : List Nat) (hlen : x.length = y.length)
    (h : ∀ z ∈ List.zipWith (fun a b => a ^^^ b) x y, z = 0) : x = y := by
  induction x generalizing y with
  | nil =>
    cases y with
    | nil => rfl
    | cons b bs => simp at hlen
  | cons a as ih =>
    cases y with
    | nil => simp at hlen
    | cons b bs =>
      simp only [List.zipWith_cons_cons, List.mem_cons, forall_eq_or_imp] at h
      have hab : a = b := Nat.xor_eq_zero.mp h.1
      have htl : as = bs := ih bs (by simpa using hlen) h.2
      rw [hab, htl]

theorem constantTimeCompare_eq_one_iff (x y : List Nat) :
    constantTimeCompare x y = 1 ↔ x = y := by
  unfold constantTimeCompare
  split_ifs with h1 h2
  · constructor
    · intro habs
      exact absurd habs (by norm_num)
    · intro hxy
      exact absurd (hxy ▸ rfl) h1
  · push_neg at h1
    rw [foldl_lor_eq_zero_iff] at h2
    simp only [true_iff]
    exact eq_of_zipWith_xor_zero x y h1 h2.2
  · push_neg at h1
    constructor
    · intro habs
      exact absurd habs (by norm_num)
    · intro hxy
      subst hxy
      apply h2
      rw [foldl_lor_eq_zero_iff, zipWith_xor_self]
      refine ⟨rfl, fun z hz => ?_⟩
      rcases List.mem_map.mp hz with ⟨w, _, rfl⟩
      rfl

theorem constantTimeCompare_self (x : List Nat) : constantTimeCompare x x = 1 :=
  (constantTimeCompare_eq_one_iff x x).mpr rfl

/-! ## Supporting lemmas: digest shape -/

theorem toBytesBE_length (k n : Nat) : (toBytesBE k n).length = k := by
  simp [toBytesBE]

theorem sha256Bytes_length (msg : List Nat) : (sha256Bytes msg).length = 32 := by
  unfold sha256Bytes
  simp [toBytesBE_length]

theorem hashToken_length (s : String) : (hashToken s).length = 32 :=
  sha256Bytes_length _

/-! ## Supporting lemmas: decimal formatting -/

theorem decimalDigitsAux_eq (fuel n : Nat) (h : n ≤ fuel) :
    decimalDigitsAux fuel n = ((Nat.digits 10 n).reverse).map (fun d => Char.ofNat (48 + d)) := by
  induction fuel generalizing n with
  | zero =>
    have h0 : n = 0 := Nat.le_zero.mp h
    subst h0
    simp [decimalDigitsAux]
  | succ f ih =>
    match n with
    | 0 => simp [decimalDigitsAux]
    | m + 1 =>
      have hdiv : (m + 1) / 10 ≤ f := by omega
      rw [show decimalDigitsAux (f + 1) (m + 1) =
            decimalDigitsAux f ((m + 1) / 10) ++ [Char.ofNat (48 + (m + 1) % 10)] from rfl,
          ih _ hdiv, Nat.digits_def' (by norm_num : (1 : Nat) < 10) (Nat.succ_pos m)]
      simp

theorem decimalDigits_eq (n : Nat) :
    decimalDigits n = ((Nat.digits 10 n).reverse).map (fun d => Char.ofNat (48 + d)) :=
  decimalDigitsAux_eq n n le_rfl

theorem decimalDigits_length_le (L n : Nat) (h : n < 10 ^ L) :
    (decimalDigits n).length ≤ L := by
  rw [decimalDigits_eq]
  simp only [List.length_map, List.length_reverse]
  rcases Nat.eq_zero_or_pos n with rfl | hn
  · simp
  · have hne : n ≠ 0 := Nat.pos_iff_ne_zero.mp hn
    rw [Nat.digits_len 10 n (by norm_num) hne]
    have := (Nat.lt_pow_iff_log_lt (by norm_num : 1 < 10) hne).mp h
    omega

theorem digitChar_isDigit (d : Nat) (h : d < 10) : (Char.ofNat (48 + d)).isDigit = true := by
  interval_cases d <;> decide

theorem decimalDigits_all_digit (n : Nat) : ∀ c ∈ decimalDigits n, c.isDigit = true := by
  rw [decimalDigits_eq]
  intro c hc
  rcases List.mem_map.mp hc with ⟨d, hd, rfl⟩
  exact digitChar_isDigit d (Nat.digits_lt_base (by norm_num) (List.mem_reverse.mp hd))

theorem zeroPad_length (w : Nat) (ds : List Char) (h : ds.length ≤ w) :
    (zeroPad w ds).length = w := by
  simp [zeroPad]
  omega

theorem zeroPad_mem (w : Nat) (ds : List Char) (c : Char) (hc : c ∈ zeroPad w ds) :
    c = Char.ofNat 48 ∨ c ∈ ds := by
  rcases List.mem_append.mp hc with h | h
  · exact Or.inl (List.eq_of_mem_replicate h)
  · exact Or.inr h

/-! ## Claim C9 -/

/-- C9: `hashToken` is deterministic, producing a fixed-size 256-bit (32-byte)
digest, and the constant-time comparison of two digests returns 1 exactly when
the two digests are equal as byte sequences — it agrees with hash equality in
both directions. -/
theorem hashToken_comparator_agreement :
    (∀ x : String, hashToken x = hashToken x) ∧
    (∀ x : String, (hashToken x).length = 32) ∧
    (∀ a b : List Nat, constantTimeCompare a b = 1 ↔ a = b) ∧
    (∀ x y : String,
      constantTimeCompare (hashToken x) (hashToken y) = 1 ↔ hashToken x = hashToken y) :=
  ⟨fun _ => rfl, hashToken_length, constantTimeCompare_eq_one_iff,
   fun x y => constantTimeCompare_eq_one_iff (hashToken x) (hashToken y)⟩

theorem hashToken_comparator_agreement_witness :
    constantTimeCompare (hashToken "abc") (hashToken "abc") = 1 ∧
    (hashToken "abc").length = 32 :=
  ⟨(hashToken_comparator_agreement.2.2.1 (hashToken "abc") (hashToken "abc")).mpr rfl,
   hashToken_comparator_agreement.2.1 "abc"⟩

/-! ## Claim C7 -/

/-- C7: for every length `L` in `[1,10]`, `generateNumericCode L` returns a
string of exactly `L` characters, each a decimal digit (zero-padded as
needed); for every `L` outside `[1,10]` it returns an error and no code. -/
theorem generateNumericCode_spec (length : Int) (rnd : Nat) :
    (1 ≤ length → length ≤ 10 → rnd < 10 ^ length.toNat →
      ∃ s : String, generateNumericCode length rnd = .ok s ∧
        s.length = length.toNat ∧ ∀ c ∈ s.data, c.isDigit = true) ∧
    (length ≤ 0 ∨ 10 < length →
      generateNumericCode length rnd = .error "code length must be between 1 and 10") := by
  constructor
  · intro h1 h2 hr
    have hcond : ¬(length ≤ 0 ∨ 10 < length) := by omega
    refine ⟨String.mk (zeroPad length.toNat (decimalDigits rnd)), ?_, ?_, ?_⟩
    · simp [generateNumericCode, hcond]
    · show (zeroPad length.toNat (decimalDigits rnd)).length = length.toNat
      exact zeroPad_length _ _ (decimalDigits_length_le _ _ hr)
    · intro c hc
      rcases zeroPad_mem _ _ c hc with rfl | h
      · decide
      · exact decimalDigits_all_digit rnd c h
  · intro h
    simp [generateNumericCode, h]

theorem generateNumericCode_spec_witness :
    (∃ s : String, generateNumericCode 6 42 = .ok s ∧
        s.length = (6 : Int).toNat ∧ ∀ c ∈ s.data, c.isDigit = true) ∧
    generateNumericCode 11 0 = .error "code length must be between 1 and 10" :=
  ⟨(generateNumericCode_spec 6 42).1 (by norm_num) (by norm_num) (by decide),
   (generateNumericCode_spec 11 0).2 (by norm_num)⟩

/-! ## Claim C8 -/

/-- C8: `CleanupExpiredTokens` deletes a token record iff the record is past
its expiry, or is used and was created more than 7 days before now; every
unused, unexpired record is left unchanged, and the users table is untouched. -/
theorem cleanupExpiredTokens_frame (st : DBState) (now : Int) :
    (cleanupExpiredTokens st now).users = st.users ∧
    (∀ t : EmailToken,
      t ∈ (cleanupExpiredTokens st now).tokens ↔
        t ∈ st.tokens ∧
        ¬(t.expiresAt < now ∨ (t.used = true ∧ t.createdAt < now - usedRetention))) ∧
    (∀ t ∈ st.tokens, t.used = false → ¬ t.expiresAt < now →
      t ∈ (cleanupExpiredTokens st now).tokens) := by
  have hmem : ∀ t : EmailToken,
      t ∈ (cleanupExpiredTokens st now).tokens ↔
        t ∈ st.tokens ∧
        ¬(t.expiresAt < now ∨ (t.used = true ∧ t.createdAt < now - usedRetention)) := by
    intro t
    simp only [cleanupExpiredTokens, List.mem_filter, Bool.not_eq_true', Bool.or_eq_false_iff,
      Bool.and_eq_false_imp, decide_eq_false_iff_not, decide_eq_true_eq, not_or, not_and]
  refine ⟨rfl, hmem, fun t ht hu hexp => (hmem t).mpr ⟨ht, ?_⟩⟩
  simp [hu, hexp]

def cwTok : EmailToken :=
  ⟨1, [0], 7, "user@example.com", .passwordReset, 900, false, 0, "ip", "ua"⟩

def cwSt : DBState := ⟨[], [cwTok], 2⟩

theorem cleanupExpiredTokens_frame_witness :
    cwTok ∈ cwSt.tokens ∧ cwTok.used = false ∧ ¬ cwTok.expiresAt < (100 : Int) ∧
    cwTok ∈ (cleanupExpiredTokens cwSt 100).tokens :=
  ⟨by decide, rfl, by decide,
   (cleanupExpiredTokens_frame cwSt 100).2.2 cwTok (by decide) rfl (by decide)⟩

/-! ## Claim C5 -/

def rlUser : User := ⟨7, "user@example.com", none⟩

def rlSt0 : DBState := ⟨[rlUser], [], 1⟩

def rlReq : PasswordResetRequest := ⟨"user@example.com", "1.2.3.4", "UA"⟩

def rlSt1 : DBState := (requestPasswordReset rlSt0 rlReq "111111" 0 (.ok ())).1

def rlSt2 : DBState := (requestPasswordReset rlSt1 rlReq "222222" 10 (.ok ())).1

def rlSt3 : DBState := (requestPasswordReset rlSt2 rlReq "333333" 20 (.ok ())).1

/-- C5: `checkRateLimit` fails with `RateLimitExceeded` iff at least 3 token
records for the (email, flow type) pair were created within the trailing hour
(it is a pure read and performs no write); consequently the fourth of four
password-reset requests for one email within an hour fails
`RateLimitExceeded`, while a request issued more than an hour after the first
succeeds. -/
theorem checkRateLimit_spec :
    (∀ (st : DBState) (email : String) (ty : TokenType) (now : Int),
      checkRateLimit st email ty now = .error .rateLimitExceeded ↔
        3 ≤ recentCount st email ty now) ∧
    (requestPasswordReset rlSt0 rlReq "111111" 0 (.ok ())).2.2 = .ok () ∧
    (requestPasswordReset rlSt1 rlReq "222222" 10 (.ok ())).2.2 = .ok () ∧
    (requestPasswordReset rlSt2 rlReq "333333" 20 (.ok ())).2.2 = .ok () ∧
    (requestPasswordReset rlSt3 rlReq "444444" 30 (.ok ())).2.2 = .error .rateLimitExceeded ∧
    (requestPasswordReset rlSt3 rlReq "555555" 3700 (.ok ())).2.2 = .ok () := by
  refine ⟨?_, by decide, by decide, by decide, by decide, by decide⟩
  intro st email ty now
  unfold checkRateLimit
  split_ifs with h
  · simp [h]
  · simp [h]

theorem checkRateLimit_spec_witness :
    checkRateLimit rlSt3 "user@example.com" .passwordReset 30 = .error .rateLimitExceeded :=
  (checkRateLimit_spec.1 rlSt3 "user@example.com" .passwordReset 30).mpr (by decide)

/-! ## Supporting lemmas: branch characterizations of the operations -/

theorem vprc_eq_of_invalid (st : DBState) (email code : String) (now : Int) (e : TokenError)
    (hv : validateEmailAddress email = .error e) :
    verifyPasswordResetCode st email code now = (st, .error e) := by
  unfold verifyPasswordResetCode
  rw [hv]

theorem vprc_eq_of_empty (st : DBState) (email : String) (now : Int)
    (hv : validateEmailAddress email = .ok ()) :
    verifyPasswordResetCode st email "" now = (st, .error .emptyCode) := by
  unfold verifyPasswordResetCode
  rw [hv]
  rfl

theorem vprc_eq_of_none (st : DBState) (email code : String) (now : Int)
    (hv : validateEmailAddress email = .ok ()) (hc : code ≠ "")
    (hf : findLatestUnused st email .passwordReset = none) :
    verifyPasswordResetCode st email code now = (st, .error .invalidToken) := by
  unfold verifyPasswordResetCode
  rw [hv]
  simp only [if_neg hc, hf]

theorem vprc_eq_of_expired (st : DBState) (email code : String) (now : Int) (tok : EmailToken)
    (hv : validateEmailAddress email = .ok ()) (hc : code ≠ "")
    (hf : findLatestUnused st email .passwordReset = some tok)
    (he : tok.expiresAt < now) :
    verifyPasswordResetCode st email code now = (st, .error .tokenExpired) := by
  unfold verifyPasswordResetCode
  rw [hv]
  simp only [if_neg hc, hf, if_pos he]

theorem vprc_eq_of_mismatch (st : DBState) (email code : String) (now : Int) (tok : EmailToken)
    (hv : validateEmailAddress email = .ok ()) (hc : code ≠ "")
    (hf : findLatestUnused st email .passwordReset = some tok)
    (he : ¬ tok.expiresAt < now)
    (hm : constantTimeCompare (hashToken code) tok.token ≠ 1) :
    verifyPasswordResetCode st email code now = (st, .error .invalidToken) := by
  unfold verifyPasswordResetCode
  rw [hv]
  simp only [if_neg hc, hf, if_neg he, if_pos hm]

theorem vprc_eq_of_match (st : DBState) (email code : String) (now : Int) (tok : EmailToken)
    (hv : validateEmailAddress email = .ok ()) (hc : code ≠ "")
    (hf : findLatestUnused st email .passwordReset = some tok)
    (he : ¬ tok.expiresAt < now)
    (hm : constantTimeCompare (hashToken code) tok.token = 1) :
    verifyPasswordResetCode st email code now = (markUsed st tok.id, .ok tok) := by
  unfold verifyPasswordResetCode
  rw [hv]
  have hm2 : ¬ constantTimeCompare (hashToken code) tok.token ≠ 1 := by simp [hm]
  simp only [if_neg hc, hf, if_neg he, if_neg hm2]

theorem vet_eq_of_empty (st : DBState) (now : Int) :
    verifyEmailToken st "" now = (st, .error .emptyToken) := rfl

theorem vet_eq_of_none (st : DBState) (token : String) (now : Int) (hc : token ≠ "")
    (hf : findFirstUnusedByHash st (hashToken token) .emailVerification = none) :
    verifyEmailToken st token now = (st, .error .invalidToken) := by
  unfold verifyEmailToken
  simp only [if_neg hc, hf]

theorem vet_eq_of_expired (st : DBState) (token : String) (now : Int) (tok : EmailToken)
    (hc : token ≠ "")
    (hf : findFirstUnusedByHash st (hashToken token) .emailVerification = some tok)
    (he : tok.expiresAt < now) :
    verifyEmailToken st token now = (st, .error .tokenExpired) := by
  unfold verifyEmailToken
  simp only [if_neg hc, hf, if_pos he]

theorem vet_eq_of_found (st : DBState) (token : String) (now : Int) (tok : EmailToken)
    (hc : token ≠ "")
    (hf : findFirstUnusedByHash st (hashToken token) .emailVerification = some tok)
    (he : ¬ tok.expiresAt < now) :
    verifyEmailToken st token now =
      (setVerifiedIfUnset (markUsed st tok.id) tok.userId now, .ok tok) := by
  unfold verifyEmailToken
  simp only [if_neg hc, hf, if_neg he]

theorem rpr_eq_of_invalid (st : DBState) (req : PasswordResetRequest) (code : String)
    (now : Int) (nr : Except TokenError Unit) (e : TokenError)
    (hv : validateEmailAddress req.email = .error e) :
    requestPasswordReset st req code now nr = (st, [], .error e) := by
  unfold requestPasswordReset
  rw [hv]

theorem rpr_eq_of_ratelimited (st : DBState) (req : PasswordResetRequest) (code : String)
    (now : Int) (nr : Except TokenError Unit) (e : TokenError)
    (hv : validateEmailAddress req.email = .ok ())
    (hr : checkRateLimit st req.email .passwordReset now = .error e) :
    requestPasswordReset st req code now nr = (st, [], .error e) := by
  unfold requestPasswordReset
  rw [hv]
  simp only [hr]

theorem rpr_eq_of_ok (st : DBState) (req : PasswordResetRequest) (code : String)
    (now : Int) (nr : Except TokenError Unit)
    (hv : validateEmailAddress req.email = .ok ())
    (hr : checkRateLimit st req.email .passwordReset now = .ok ()) :
    requestPasswordReset st req code now nr =
      (insertTokenRowsForEmail st (hashToken code) req.email .passwordReset
        (now + resetCodeTTL) now req.requestIP req.userAgent,
       [⟨req.email, code, ⟨req.requestIP, req.userAgent, now⟩⟩], nr) := by
  unfold requestPasswordReset
  rw [hv]
  simp only [hr]

theorem rev_eq_of_invalid (st : DBState) (req : EmailVerificationRequest) (token : String)
    (now : Int) (nr : Except TokenError Unit) (e : TokenError)
    (hv : validateEmailAddress req.email = .error e) :
    requestEmailVerification st req token now nr = (st, [], .error e) := by
  unfold requestEmailVerification
  rw [hv]

theorem rev_eq_of_bad_user (st : DBState) (req : EmailVerificationRequest) (token : String)
    (now : Int) (nr : Except TokenError Unit)
    (hv : validateEmailAddress req.email = .ok ()) (hu : req.userId ≤ 0) :
    requestEmailVerification st req token now nr = (st, [], .error .invalidUserId) := by
  unfold requestEmailVerification
  rw [hv]
  simp only [if_pos hu]

theorem rev_eq_of_ok (st : DBState) (req : EmailVerificationRequest) (token : String)
    (now : Int) (nr : Except TokenError Unit)
    (hv : validateEmailAddress req.email = .ok ()) (hu : ¬ req.userId ≤ 0) :
    requestEmailVerification st req token now nr =
      ({ st with
          tokens := st.tokens ++
            [{ id := st.nextId, token := hashToken token, userId := req.userId,
               email := req.email, type := .emailVerification,
               expiresAt := now + verificationTTL, used := false, createdAt := now,
               requestIP := req.requestIP, userAgent := req.userAgent }],
          nextId := st.nextId + 1 },
       [⟨req.email, req.name, token⟩], nr) := by
  unfold requestEmailVerification
  rw [hv]
  simp only [if_neg hu]

/-! ## Claim C4 -/

/-- One operation step may keep a token record as it is, or flip its used
flag from false to true — never anything else. -/
def UsedStep (t tNew : EmailToken) : Prop :=
  tNew = t ∨ (t.used = false ∧ tNew = { t with used := true })

theorem setUsed_eq_self (t : EmailToken) (h : t.used = true) : { t with used := true } = t := by
  cases t
  simp_all

theorem forall2_usedStep_markUsed (l : List EmailToken) (id : Nat) :
    List.Forall₂ UsedStep l (l.map (fun t => if t.id = id then { t with used := true } else t)) := by
  induction l with
  | nil => exact List.Forall₂.nil
  | cons t ts ih =>
    refine List.Forall₂.cons ?_ ih
    show UsedStep t (if t.id = id then { t with used := true } else t)
    by_cases h : t.id = id
    · rw [if_pos h]
      by_cases hu : t.used = true
      · exact Or.inl (setUsed_eq_self t hu)
      · exact Or.inr ⟨by simpa using hu, rfl⟩
    · rw [if_neg h]
      exact Or.inl rfl

theorem forall2_usedStep_refl (l : List EmailToken) : List.Forall₂ UsedStep l l :=
  List.forall₂_same.mpr (fun _ _ => Or.inl rfl)

theorem forall2_usedStep_vprc (st : DBState) (email code : String) (now : Int) :
    List.Forall₂ UsedStep st.tokens (verifyPasswordResetCode st email code now).1.tokens := by
  cases hv : validateEmailAddress email with
  | error e =>
    rw [vprc_eq_of_invalid st email code now e hv]
    exact forall2_usedStep_refl _
  | ok u =>
    cases u
    by_cases hc : code = ""
    · subst hc
      rw [vprc_eq_of_empty st email now hv]
      exact forall2_usedStep_refl _
    · cases hf : findLatestUnused st email .passwordReset with
      | none =>
        rw [vprc_eq_of_none st email code now hv hc hf]
        exact forall2_usedStep_refl _
      | some tok =>
        by_cases he : tok.expiresAt < now
        · rw [vprc_eq_of_expired st email code now tok hv hc hf he]
          exact forall2_usedStep_refl _
        · by_cases hm : constantTimeCompare (hashToken code) tok.token = 1
          · rw [vprc_eq_of_match st email code now tok hv hc hf he hm]
            exact forall2_usedStep_markUsed st.tokens tok.id
          · rw [vprc_eq_of_mismatch st email code now tok hv hc hf he hm]
            exact forall2_usedStep_refl _

theorem forall2_usedStep_vet (st : DBState) (token : String) (now : Int) :
    List.Forall₂ UsedStep st.tokens (verifyEmailToken st token now).1.tokens := by
  by_cases hc : token = ""
  · subst hc
    rw [vet_eq_of_empty st now]
    exact forall2_usedStep_refl _
  · cases hf : findFirstUnusedByHash st (hashToken token) .emailVerification with
    | none =>
      rw [vet_eq_of_none st token now hc hf]
      exact forall2_usedStep_refl _
    | some tok =>
      by_cases he : tok.expiresAt < now
      · rw [vet_eq_of_expired st token now tok hc hf he]
        exact forall2_usedStep_refl _
      · rw [vet_eq_of_found st token now tok hc hf he]
        exact forall2_usedStep_markUsed st.tokens tok.id

theorem rpr_tokens_fresh (st : DBState) (req : PasswordResetRequest) (code : String)
    (now : Int) (nr : Except TokenError Unit) :
    (∀ t ∈ (requestPasswordReset st req code now nr).1.tokens,
       t ∈ st.tokens ∨ t.used = false) ∧
    (∀ t ∈ st.tokens, t ∈ (requestPasswordReset st req code now nr).1.tokens) := by
  cases hv : validateEmailAddress req.email with
  | error e =>
    rw [rpr_eq_of_invalid st req code now nr e hv]
    exact ⟨fun t ht => Or.inl ht, fun t ht => ht⟩
  | ok u =>
    cases u
    cases hr : checkRateLimit st req.email .passwordReset now with
    | error e =>
      rw [rpr_eq_of_ratelimited st req code now nr e hv hr]
      exact ⟨fun t ht => Or.inl ht, fun t ht => ht⟩
    | ok v =>
      cases v
      rw [rpr_eq_of_ok st req code now nr hv hr]
      constructor
      · intro t ht
        rcases List.mem_append.mp ht with h | h
        · exact Or.inl h
        · rcases List.mem_map.mp h with ⟨p, _, rfl⟩
          exact Or.inr rfl
      · intro t ht
        exact List.mem_append_left _ ht

theorem rev_tokens_fresh (st : DBState) (req : EmailVerificationRequest) (token : String)
    (now : Int) (nr : Except TokenError Unit) :
    (∀ t ∈ (requestEmailVerification st req token now nr).1.tokens,
       t ∈ st.tokens ∨ t.used = false) ∧
    (∀ t ∈ st.tokens, t ∈ (requestEmailVerification st req token now nr).1.tokens) := by
  cases hv : validateEmailAddress req.email with
  | error e =>
    rw [rev_eq_of_invalid st req token now nr e hv]
    exact ⟨fun t ht => Or.inl ht, fun t ht => ht⟩
  | ok u =>
    cases u
    by_cases hu : req.userId ≤ 0
    · rw [rev_eq_of_bad_user st req token now nr hv hu]
      exact ⟨fun t ht => Or.inl ht, fun t ht => ht⟩
    · rw [rev_eq_of_ok st req token now nr hv hu]
      constructor
      · intro t ht
        rcases List.mem_append.mp ht with h | h
        · exact Or.inl h
        · rcases List.mem_singleton.mp h with rfl
          exact Or.inr rfl
      · intro t ht
        exact List.mem_append_left _ ht

/-- C4: across all operations of the subsystem, a record's used flag only ever
moves from false to true and never reverts: issuance keeps every existing
record and only appends records with used = false; verification either keeps a
record unchanged or flips its used flag from false to true; maintenance only
removes records (never mutating a survivor); stats reporting writes nothing. -/
theorem used_flag_monotone (st : DBState) (req : PasswordResetRequest)
    (evReq : EmailVerificationRequest) (email code tokenStr : String) (now : Int)
    (nr : Except TokenError Unit) :
    (∀ t ∈ (requestPasswordReset st req code now nr).1.tokens,
       t ∈ st.tokens ∨ t.used = false) ∧
    (∀ t ∈ st.tokens, t ∈ (requestPasswordReset st req code now nr).1.tokens) ∧
    List.Forall₂ UsedStep st.tokens (verifyPasswordResetCode st email code now).1.tokens ∧
    (∀ t ∈ (requestEmailVerification st evReq tokenStr now nr).1.tokens,
       t ∈ st.tokens ∨ t.used = false) ∧
    (∀ t ∈ st.tokens, t ∈ (requestEmailVerification st evReq tokenStr now nr).1.tokens) ∧
    List.Forall₂ UsedStep st.tokens (verifyEmailToken st tokenStr now).1.tokens ∧
    (∀ t ∈ (cleanupExpiredTokens st now).tokens, t ∈ st.tokens) ∧
    (getTokenStats st now).1 = st :=
  ⟨(rpr_tokens_fresh st req code now nr).1,
   (rpr_tokens_fresh st req code now nr).2,
   forall2_usedStep_vprc st email code now,
   (rev_tokens_fresh st evReq tokenStr now nr).1,
   (rev_tokens_fresh st evReq tokenStr now nr).2,
   forall2_usedStep_vet st tokenStr now,
   fun _ ht => (List.mem_filter.mp ht).1,
   rfl⟩

theorem used_flag_monotone_witness :
    cwTok ∈ cwSt.tokens ∧
    cwTok ∈ (requestPasswordReset cwSt rlReq "123456" 0 (.ok ())).1.tokens :=
  ⟨by decide,
   (used_flag_monotone cwSt rlReq ⟨7, "a@example.com", "n", "ip", "ua"⟩ "a@example.com"
      "123456" "tok" 0 (.ok ())).2.1 cwTok (by decide)⟩

/-! ## Supporting lemmas: the password-reset lookup -/

theorem unusedForEmail_eq_true_iff (t : EmailToken) (email : String) (ty : TokenType) :
    unusedForEmail t email ty = true ↔
      t.email = email ∧ t.type = ty ∧ t.used = false := by
  simp [unusedForEmail, Bool.and_eq_true, decide_eq_true_eq, Bool.not_eq_true', and_assoc]

theorem findLatestUnused_eq_none (st : DBState) (email : String) (ty : TokenType)
    (h : ∀ t ∈ st.tokens, ¬(t.email = email ∧ t.type = ty ∧ t.used = false)) :
    findLatestUnused st email ty = none := by
  unfold findLatestUnused pickLatest
  have hf : st.tokens.filter (fun t => unusedForEmail t email ty) = [] := by
    rw [List.filter_eq_nil_iff]
    intro t ht habs
    exact h t ht ((unusedForEmail_eq_true_iff t email ty).mp habs)
  rw [hf]
  rfl

theorem pickLatestStep_some (acc : Option EmailToken) (x t : EmailToken)
    (h : pickLatestStep acc x = some t) : acc = some t ∨ t = x := by
  cases acc with
  | none =>
    simp only [pickLatestStep] at h
    exact Or.inr (Option.some.inj h).symm
  | some b =>
    simp only [pickLatestStep] at h
    split_ifs at h with hlt
    · exact Or.inr (Option.some.inj h).symm
    · exact Or.inl h

theorem foldl_pickLatestStep_mem (l : List EmailToken) :
    ∀ (acc : Option EmailToken) (t : EmailToken),
      l.foldl pickLatestStep acc = some t → acc = some t ∨ t ∈ l := by
  induction l with
  | nil => exact fun acc t h => Or.inl h
  | cons x xs ih =>
    intro acc t h
    rcases ih (pickLatestStep acc x) t h with h2 | h2
    · rcases pickLatestStep_some acc x t h2 with h3 | h3
      · exact Or.inl h3
      · exact Or.inr (h3 ▸ List.mem_cons_self x xs)
    · exact Or.inr (List.mem_cons_of_mem x h2)

theorem findLatestUnused_mem (st : DBState) (email : String) (ty : TokenType)
    (tok : EmailToken) (h : findLatestUnused st email ty = some tok) : tok ∈ st.tokens := by
  unfold findLatestUnused pickLatest at h
  rcases foldl_pickLatestStep_mem _ none tok h with h2 | h2
  · cases h2
  · exact List.mem_of_mem_filter h2

theorem markUsed_mem_setUsed (st : DBState) (tok : EmailToken) (h : tok ∈ st.tokens) :
    { tok with used := true } ∈ (markUsed st tok.id).tokens := by
  unfold markUsed
  have h2 := List.mem_map_of_mem
    (fun t => if t.id = tok.id then { t with used := true } else t) h
  simpa using h2

theorem findLatestUnused_markUsed_none (st : DBState) (email : String) (tok : EmailToken)
    (honly : ∀ t ∈ st.tokens,
      t.email = email → t.type = .passwordReset → t.used = false → t.id = tok.id) :
    findLatestUnused (markUsed st tok.id) email .passwordReset = none := by
  apply findLatestUnused_eq_none
  intro t ht
  rintro ⟨hemail, hty, hused⟩
  rcases List.mem_map.mp ht with ⟨t0, ht0, rfl⟩
  by_cases h : t0.id = tok.id
  · simp [if_pos h] at hused
  · simp only [if_neg h] at hemail hty hused
    exact h (honly t0 ht0 hemail hty hused)

theorem ctc_ne_one_of_length_ne (x y : List Nat) (h : x.length ≠ y.length) :
    constantTimeCompare x y ≠ 1 := by
  unfold constantTimeCompare
  rw [if_pos h]
  norm_num

/-! ## Claim C3 -/

/-- C3: verification failure contract of `VerifyPasswordResetCode`: with no
unused password-reset record for the email it fails `InvalidToken`; when the
selected unused record is expired it fails `TokenExpired` (whatever the code);
when the record is unexpired but the supplied code's hash differs from the
stored hash it fails `InvalidToken` — and in every failure case the state is
returned unchanged, so the record remains unused. -/
theorem verifyPasswordResetCode_failure_contract (st : DBState) (email code : String)
    (now : Int) (hv : validateEmailAddress email = .ok ()) (hc : code ≠ "") :
    ((∀ t ∈ st.tokens, ¬(t.email = email ∧ t.type = .passwordReset ∧ t.used = false)) →
      verifyPasswordResetCode st email code now = (st, .error .invalidToken)) ∧
    (∀ tok : EmailToken, findLatestUnused st email .passwordReset = some tok →
      (tok.expiresAt < now →
        verifyPasswordResetCode st email code now = (st, .error .tokenExpired)) ∧
      (¬ tok.expiresAt < now → constantTimeCompare (hashToken code) tok.token ≠ 1 →
        verifyPasswordResetCode st email code now = (st, .error .invalidToken))) := by
  refine ⟨fun h =>
    vprc_eq_of_none st email code now hv hc (findLatestUnused_eq_none st email _ h), ?_⟩
  intro tok hf
  exact ⟨fun he => vprc_eq_of_expired st email code now tok hv hc hf he,
         fun he hm => vprc_eq_of_mismatch st email code now tok hv hc hf he hm⟩

def c3Tok : EmailToken :=
  ⟨1, [], 7, "user@example.com", .passwordReset, 900, false, 0, "ip", "ua"⟩

def c3St : DBState := ⟨[rlUser], [c3Tok], 2⟩

theorem verifyPasswordResetCode_failure_contract_witness :
    verifyPasswordResetCode c3St "user@example.com" "123456" 60 =
      (c3St, .error .invalidToken) :=
  ((verifyPasswordResetCode_failure_contract c3St "user@example.com" "123456" 60
      (by decide) (by decide)).2 c3Tok rfl).2 (by decide)
    (ctc_ne_one_of_length_ne _ _ (by simp [hashToken_length, c3Tok]))

/-! ## Claim C10 -/

/-- C10: when the most recently created unused password-reset record for the
email is past its expiry, `VerifyPasswordResetCode` returns `TokenExpired`
regardless of whether the supplied code matches the stored hash — the expiry
check precedes the constant-time hash comparison — and the state is unchanged,
so the record is not marked used. -/
theorem verifyPasswordResetCode_expiry_precedes_hash (st : DBState) (email code : String)
    (now : Int) (tok : EmailToken)
    (hv : validateEmailAddress email = .ok ()) (hc : code ≠ "")
    (hf : findLatestUnused st email .passwordReset = some tok)
    (he : tok.expiresAt < now) :
    verifyPasswordResetCode st email code now = (st, .error .tokenExpired) :=
  vprc_eq_of_expired st email code now tok hv hc hf he

def c10Tok : EmailToken :=
  ⟨1, hashToken "123456", 7, "user@example.com", .passwordReset, 900, false, 0, "ip", "ua"⟩

def c10St : DBState := ⟨[rlUser], [c10Tok], 2⟩

theorem verifyPasswordResetCode_expiry_precedes_hash_witness :
    verifyPasswordResetCode c10St "user@example.com" "123456" 960 =
      (c10St, .error .tokenExpired) :=
  verifyPasswordResetCode_expiry_precedes_hash c10St "user@example.com" "123456" 960 c10Tok
    (by decide) (by decide) rfl (by decide)

/-! ## Claim C1 -/

/-- C1 (amended): when the most recently created unused password-reset record
for the email is unexpired and its stored hash matches the hash of the
supplied code, `VerifyPasswordResetCode` succeeds, marks exactly that record
used, and returns the record carrying the owning-user id; if that record was
the only unused password-reset record for the email, then any subsequent call
for the same email with any nonempty code fails `InvalidToken`. -/
theorem verifyPasswordResetCode_single_use (st : DBState) (email code : String) (now : Int)
    (tok : EmailToken)
    (hv : validateEmailAddress email = .ok ()) (hc : code ≠ "")
    (hf : findLatestUnused st email .passwordReset = some tok)
    (he : ¬ tok.expiresAt < now)
    (hm : constantTimeCompare (hashToken code) tok.token = 1) :
    verifyPasswordResetCode st email code now = (markUsed st tok.id, .ok tok) ∧
    tok ∈ st.tokens ∧
    { tok with used := true } ∈ (markUsed st tok.id).tokens ∧
    ((∀ t ∈ st.tokens,
        t.email = email → t.type = .passwordReset → t.used = false → t.id = tok.id) →
      ∀ (code2 : String) (now2 : Int), code2 ≠ "" →
        verifyPasswordResetCode (markUsed st tok.id) email code2 now2 =
          (markUsed st tok.id, .error .invalidToken)) :=
  ⟨vprc_eq_of_match st email code now tok hv hc hf he hm,
   findLatestUnused_mem st email _ tok hf,
   markUsed_mem_setUsed st tok (findLatestUnused_mem st email _ tok hf),
   fun honly code2 now2 hc2 =>
     vprc_eq_of_none _ email code2 now2 hv hc2
       (findLatestUnused_markUsed_none st email tok honly)⟩

def c1TokOld : EmailToken :=
  ⟨1, hashToken "111111", 7, "user@example.com", .passwordReset, 900, false, 0, "ip", "ua"⟩

def c1TokNew : EmailToken :=
  ⟨2, hashToken "222222", 7, "user@example.com", .passwordReset, 910, false, 10, "ip", "ua"⟩

def c1St : DBState := ⟨[rlUser], [c1TokOld, c1TokNew], 3⟩

/-- C1 counterexample to the claim as stated: with two unused password-reset
records for the same email, verifying the code of the most recent record
succeeds, but a subsequent call with the older record's code succeeds as well
instead of failing `InvalidToken` — the replay guarantee needs the verified
record to be the only unused one. -/
theorem verifyPasswordResetCode_replay_counterexample :
    (verifyPasswordResetCode c1St "user@example.com" "222222" 20).2 = .ok c1TokNew ∧
    (verifyPasswordResetCode (verifyPasswordResetCode c1St "user@example.com" "222222" 20).1
        "user@example.com" "111111" 20).2 ≠ .error .invalidToken := by
  have h1 := vprc_eq_of_match c1St "user@example.com" "222222" 20 c1TokNew
    (by decide) (by decide) rfl (by decide) (constantTimeCompare_self _)
  have h2 := vprc_eq_of_match (markUsed c1St c1TokNew.id) "user@example.com" "111111" 20
    c1TokOld (by decide) (by decide) rfl (by decide) (constantTimeCompare_self _)
  refine ⟨by rw [h1], ?_⟩
  rw [show (verifyPasswordResetCode c1St "user@example.com" "222222" 20).1 =
        markUsed c1St c1TokNew.id from by rw [h1], h2]
  simp

def c1wTok : EmailToken :=
  ⟨1, hashToken "123456", 7, "user@example.com", .passwordReset, 900, false, 0, "ip", "ua"⟩

def c1wSt : DBState := ⟨[rlUser], [c1wTok], 2⟩

theorem verifyPasswordResetCode_single_use_witness :
    verifyPasswordResetCode c1wSt "user@example.com" "123456" 60 =
      (markUsed c1wSt c1wTok.id, .ok c1wTok) ∧
    verifyPasswordResetCode (markUsed c1wSt c1wTok.id) "user@example.com" "999999" 61 =
      (markUsed c1wSt c1wTok.id, .error .invalidToken) :=
  ⟨(verifyPasswordResetCode_single_use c1wSt "user@example.com" "123456" 60 c1wTok
      (by decide) (by decide) rfl (by decide) (constantTimeCompare_self _)).1,
   (verifyPasswordResetCode_single_use c1wSt "user@example.com" "123456" 60 c1wTok
      (by decide) (by decide) rfl (by decide) (constantTimeCompare_self _)).2.2.2
     (by
       intro t ht h1 h2 h3
       rcases List.mem_singleton.mp ht with rfl
       rfl)
     "999999" 61 (by decide)⟩

/-! ## Claim C2 -/

/-- C2 (amended): `RequestPasswordReset` persists a token record only for
users whose email matches the request (in particular, no record is created for
an email that resolves to no user), and the plaintext code with its security
context (IP, user agent, timestamp) is handed to the Notifier exactly when
validation and rate-limiting pass and the insert step has completed — even
when the email resolved to no user and hence no record was created. -/
theorem requestPasswordReset_persistence_gating (st : DBState)
    (req : PasswordResetRequest) (code : String) (now : Int)
    (nr : Except TokenError Unit) :
    (∀ t ∈ (requestPasswordReset st req code now nr).1.tokens,
       t ∈ st.tokens ∨
       ∃ u ∈ st.users, u.email = req.email ∧ t.userId = u.id ∧ t.used = false) ∧
    ((∀ u ∈ st.users, u.email ≠ req.email) →
       (requestPasswordReset st req code now nr).1.tokens = st.tokens) ∧
    (validateEmailAddress req.email = .ok () →
     checkRateLimit st req.email .passwordReset now = .ok () →
       (requestPasswordReset st req code now nr).2.1 =
         [⟨req.email, code, ⟨req.requestIP, req.userAgent, now⟩⟩]) ∧
    (∀ n ∈ (requestPasswordReset st req code now nr).2.1,
       validateEmailAddress req.email = .ok () ∧
       checkRateLimit st req.email .passwordReset now = .ok ()) := by
  cases hv : validateEmailAddress req.email with
  | error e =>
    rw [rpr_eq_of_invalid st req code now nr e hv]
    exact ⟨fun t ht => Or.inl ht, fun _ => rfl, fun h2 _ => Except.noConfusion h2,
           fun n hn => absurd hn (by simp)⟩
  | ok u =>
    cases u
    cases hr : checkRateLimit st req.email .passwordReset now with
    | error e =>
      rw [rpr_eq_of_ratelimited st req code now nr e hv hr]
      exact ⟨fun t ht => Or.inl ht, fun _ => rfl, fun _ h3 => Except.noConfusion h3,
             fun n hn => absurd hn (by simp)⟩
    | ok v =>
      cases v
      rw [rpr_eq_of_ok st req code now nr hv hr]
      refine ⟨?_, ?_, fun _ _ => rfl, fun n _ => ⟨rfl, rfl⟩⟩
      · intro t ht
        rcases List.mem_append.mp ht with h | h
        · exact Or.inl h
        · rcases List.mem_map.mp h with ⟨p, hp, rfl⟩
          have hmem : p.2 ∈ st.users.filter (fun u => decide (u.email = req.email)) :=
            List.getElem?_mem (List.mem_enum_iff_getElem?.mp hp)
          have h2 := List.mem_filter.mp hmem
          exact Or.inr ⟨p.2, h2.1, by simpa using h2.2, rfl, rfl⟩
      · intro h
        have hfil : st.users.filter (fun u => decide (u.email = req.email)) = [] := by
          rw [List.filter_eq_nil_iff]
          intro u hu habs
          exact h u hu (by simpa using habs)
        show st.tokens ++ _ = st.tokens
        rw [hfil]
        simp [insertTokenRowsForEmail]

/-- C2 counterexample to the claim as stated: a request for an email that
resolves to no user persists nothing, yet the plaintext code and security
context are still handed to the Notifier and the call reports success — the
notification is not conditioned on a record having been persisted. -/
theorem requestPasswordReset_notify_without_record :
    (requestPasswordReset ⟨[], [], 1⟩ ⟨"ghost@example.com", "9.9.9.9", "UA"⟩
        "123456" 0 (.ok ())).1.tokens = [] ∧
    (requestPasswordReset ⟨[], [], 1⟩ ⟨"ghost@example.com", "9.9.9.9", "UA"⟩
        "123456" 0 (.ok ())).2.1 ≠ [] ∧
    (requestPasswordReset ⟨[], [], 1⟩ ⟨"ghost@example.com", "9.9.9.9", "UA"⟩
        "123456" 0 (.ok ())).2.2 = .ok () := by
  refine ⟨?_, ?_, ?_⟩ <;> decide

theorem requestPasswordReset_persistence_gating_witness :
    (requestPasswordReset ⟨[], [], 1⟩ ⟨"ghost@example.com", "9.9.9.9", "UA"⟩
        "123456" 0 (.ok ())).1.tokens = [] :=
  (requestPasswordReset_persistence_gating ⟨[], [], 1⟩
      ⟨"ghost@example.com", "9.9.9.9", "UA"⟩ "123456" 0 (.ok ())).2.1
    (fun u hu => absurd hu (by simp))

/-! ## Claim C6 -/

theorem findFirstUnusedByHash_eq_none (st : DBState) (hash : List Nat)
    (h : ∀ t ∈ st.tokens, t.token = hash → t.type = .emailVerification → t.used = true) :
    findFirstUnusedByHash st hash .emailVerification = none := by
  unfold findFirstUnusedByHash
  rw [List.find?_eq_none]
  intro t ht habs
  simp only [Bool.and_eq_true, decide_eq_true_eq, Bool.not_eq_true'] at habs
  have h2 := h t ht habs.1.1 habs.1.2
  rw [habs.2] at h2
  exact Bool.noConfusion h2

/-- C6: a successful `VerifyEmailToken` marks the matching unused record used
and sets the owning user's email-verified timestamp only if it is not already
set — an already-verified user and every other user are left unchanged; a
token all of whose records are used fails `InvalidToken`, and every failing
call leaves the state (in particular every verified timestamp) unchanged. -/
theorem verifyEmailToken_idempotent (st : DBState) (token : String) (now : Int) :
    (∀ tok : EmailToken, token ≠ "" →
      findFirstUnusedByHash st (hashToken token) .emailVerification = some tok →
      ¬ tok.expiresAt < now →
      (verifyEmailToken st token now).2 = .ok tok ∧
      (∀ t ∈ st.tokens, t.id = tok.id →
        { t with used := true } ∈ (verifyEmailToken st token now).1.tokens) ∧
      (∀ u ∈ st.users, u.id = tok.userId → u.emailVerifiedAt = none →
        { u with emailVerifiedAt := some now } ∈ (verifyEmailToken st token now).1.users) ∧
      (∀ u ∈ st.users, u.emailVerifiedAt ≠ none → u ∈ (verifyEmailToken st token now).1.users) ∧
      (∀ u ∈ st.users, u.id ≠ tok.userId → u ∈ (verifyEmailToken st token now).1.users)) ∧
    ((∀ t ∈ st.tokens, t.token = hashToken token → t.type = .emailVerification → t.used = true) →
      token ≠ "" → verifyEmailToken st token now = (st, .error .invalidToken)) ∧
    (∀ e : TokenError, (verifyEmailToken st token now).2 = .error e →
      (verifyEmailToken st token now).1 = st) := by
  refine ⟨?_, ?_, ?_⟩
  · intro tok hc hf he
    rw [vet_eq_of_found st token now tok hc hf he]
    refine ⟨rfl, ?_, ?_, ?_, ?_⟩
    · intro t ht hid
      have h2 : (if t.id = tok.id then { t with used := true } else t) ∈
          (markUsed st tok.id).tokens := List.mem_map_of_mem _ ht
      rwa [if_pos hid] at h2
    · intro u hu hid hnone
      have h2 : (if u.id = tok.userId ∧ u.emailVerifiedAt = none then
            { u with emailVerifiedAt := some now } else u) ∈
          (setVerifiedIfUnset (markUsed st tok.id) tok.userId now).users :=
        List.mem_map_of_mem _ hu
      rwa [if_pos ⟨hid, hnone⟩] at h2
    · intro u hu hset
      have h2 : (if u.id = tok.userId ∧ u.emailVerifiedAt = none then
            { u with emailVerifiedAt := some now } else u) ∈
          (setVerifiedIfUnset (markUsed st tok.id) tok.userId now).users :=
        List.mem_map_of_mem _ hu
      rwa [if_neg (fun hand => hset hand.2)] at h2
    · intro u hu hid
      have h2 : (if u.id = tok.userId ∧ u.emailVerifiedAt = none then
            { u with emailVerifiedAt := some now } else u) ∈
          (setVerifiedIfUnset (markUsed st tok.id) tok.userId now).users :=
        List.mem_map_of_mem _ hu
      rwa [if_neg (fun hand => hid hand.1)] at h2
  · intro h hc
    exact vet_eq_of_none st token now hc (findFirstUnusedByHash_eq_none st _ h)
  · intro e habs
    by_cases hc : token = ""
    · subst hc
      rw [vet_eq_of_empty st now]
    · cases hf : findFirstUnusedByHash st (hashToken token) .emailVerification with
      | none => rw [vet_eq_of_none st token now hc hf]
      | some tok =>
        by_cases he : tok.expiresAt < now
        · rw [vet_eq_of_expired st token now tok hc hf he]
        · rw [vet_eq_of_found st token now tok hc hf he] at habs
          exact Except.noConfusion habs

def c6Tok : EmailToken :=
  ⟨1, hashToken "tok123", 7, "user@example.com", .emailVerification, 1000, false, 0, "ip", "ua"⟩

def c6St : DBState := ⟨[rlUser], [c6Tok], 2⟩

theorem verifyEmailToken_idempotent_witness :
    (verifyEmailToken c6St "tok123" 60).2 = .ok c6Tok ∧
    { rlUser with emailVerifiedAt := some 60 } ∈ (verifyEmailToken c6St "tok123" 60).1.users :=
  have h := (verifyEmailToken_idempotent c6St "tok123" 60).1 c6Tok (by decide) rfl (by decide)
  ⟨h.1, h.2.2.1 rlUser (by decide) rfl rfl⟩

end GenericSaas
